import Mathlib

/-!
Verification of the SARIMA sales-forecasting pipeline (`sarima.py`).

The script reads an uploaded CSV, detects its encoding (chardet with an
ISO-8859-1 fallback, line 19), checks for the required columns `ORDERDATE`
and `SALES` (lines 26-29), parses dates with `errors='coerce'` and drops the
failures (lines 32-33), truncates each date to its month start and groups by
that month summing `SALES` (lines 34-38), fits a SARIMAX model (lines 44-46)
and builds a 12-step forecast whose date index is
`pd.date_range(last + 1 month, periods=12, freq='MS')` (lines 49-53).

The embedding below translates those steps into executable Lean functions.
Calendar dates are triples of numerals; sales amounts are integers (the
aggregation is arithmetic-generic, and the concrete test vectors are
integer-valued); the numerical SARIMAX fit is a parameter of the pipeline
function, since its value is statistics-library behaviour, and the pipeline
theorems assume only what the script observes of it.
-/

namespace Sarima

/-- A calendar date as pandas holds one after `pd.to_datetime` (line 32):
year, month (1-12) and day of month. -/
structure Date where
  year : Nat
  month : Nat
  day : Nat
deriving DecidableEq, Repr

/-- Line 34, `dt.to_period('M').dt.to_timestamp()`: truncate a date to the
first day of its calendar month. -/
def Date.truncMonth (d : Date) : Date := ⟨d.year, d.month, 1⟩

/-- Chronological sort key. For calendar dates (month at most 12, day at most
31) it is strictly monotone in the (year, month, day) lexicographic order,
which is how pandas orders `Timestamp` group keys. -/
def Date.key (d : Date) : Nat := (d.year * 13 + d.month) * 32 + d.day

/-- The chronological order on dates used by the `groupby` index. -/
def dateLE (a b : Date) : Prop := a.key ≤ b.key

/-- Strict chronological order on dates. -/
def dateLT (a b : Date) : Prop := a.key < b.key

instance : DecidableRel dateLE := fun _ _ => Nat.decLe _ _

instance : IsTotal Date dateLE := ⟨fun _ _ => Nat.le_total _ _⟩

instance : IsTrans Date dateLE := ⟨fun _ _ _ => Nat.le_trans⟩

/-- One data row after the `pd.to_datetime(..., errors='coerce')` step of
line 32: `orderdate` is `none` when the ORDERDATE cell failed to parse (NaT),
`sales` is `none` when the SALES cell is missing (NaN). -/
structure OrderRow where
  orderdate : Option Date
  sales : Option Int
deriving DecidableEq, Repr

/-- Line 33, `df.dropna(subset=['ORDERDATE'])`: keep exactly the rows whose
date parsed, paired with their SALES cell. -/
def dropBadDates (rows : List OrderRow) : List (Date × Option Int) :=
  rows.filterMap fun r => r.orderdate.map fun d => (d, r.sales)

/-- The total `df.groupby('Month')['SALES'].sum()` assigns to month `m`
(line 37): the sum of the SALES cells of the rows whose truncated month is
`m`. Missing (NaN) cells are skipped, as pandas sums with `skipna=True`. -/
def groupSum (parsed : List (Date × Option Int)) (m : Date) : Int :=
  ((parsed.filter fun r => decide (r.1.truncMonth = m)).filterMap fun r => r.2).sum

/-- The index of the grouped frame (lines 37-38): the distinct truncated
months of the parsed rows, in ascending chronological order (`groupby`
sorts its keys). -/
def sortedKeys (parsed : List (Date × Option Int)) : List Date :=
  List.insertionSort dateLE ((parsed.map fun r => r.1.truncMonth).dedup)

/-- Lines 34-38: the monthly series, one `(month start, total SALES)` pair
per distinct month, ascending by month. -/
def monthly_sales (parsed : List (Date × Option Int)) : List (Date × Int) :=
  (sortedKeys parsed).map fun m => (m, groupSum parsed m)

/-- Lines 32-38 as one step: parse-and-drop, then aggregate monthly. -/
def aggregate (rows : List OrderRow) : List (Date × Int) :=
  monthly_sales (dropBadDates rows)

/-- Line 49: the fixed forecast horizon. -/
def forecast_steps : Nat := 12

/-- `d + pd.DateOffset(months=k)` on a date, as used on month starts in
line 51: month arithmetic carrying into the year, keeping the day. -/
def addMonths (d : Date) (k : Nat) : Date :=
  let t := d.year * 12 + (d.month - 1) + k
  ⟨t / 12, t % 12 + 1, d.day⟩

/-- Line 51, `pd.date_range(start=index[-1] + DateOffset(months=1),
periods=12, freq='MS')` applied to the last month `last` of the series: the
12 consecutive month starts that follow `last`. -/
def forecast_index (last : Date) : List Date :=
  (List.range forecast_steps).map fun i => addMonths last (i + 1)

/-- Line 19: the encoding the script uses, given what `chardet.detect`
returned (`none` models a `None` detection result). A falsy (empty or
missing) detection, or one whose lowercase form is the unreliable legacy
encoding `johab`, is replaced by the permissive single-byte fallback
ISO-8859-1. -/
def chooseEncoding (detected : Option String) : String :=
  match detected with
  | none => "ISO-8859-1"
  | some e => if e ≠ "" ∧ e.toLower ≠ "johab" then e else "ISO-8859-1"

/-- ISO-8859-1 decoding of a byte sequence: every byte value maps to the
code point of the same number, so decoding succeeds on any byte sequence.
The bytes are numerals; a value above 255 is not a byte. -/
def decodeLatin1 (bytes : List Nat) : Option (List Nat) :=
  if bytes.all fun b => decide (b < 256) then some bytes else none

/-- Line 26: the columns the script requires of the parsed frame. -/
def required_cols : List String := ["ORDERDATE", "SALES"]

/-- The two error reports the script's pipeline section can produce: the
schema report of lines 27-29 (`st.error` naming `required_cols`, then
`st.stop`), and the catch-all report of lines 73-74
(`st.error(f"... Error: {e}")` with the exception's message). -/
inductive PipelineError where
  | schemaError (required : List String)
  | genericError (msg : String)
deriving DecidableEq, Repr

/-- What a successful run displays (lines 40-71): the monthly series, the
forecast date index, the predicted means and the confidence bounds. -/
structure PipelineOutput where
  monthly : List (Date × Int)
  fIndex : List Date
  fMean : List ℚ
  fConf : List (ℚ × ℚ)
deriving Repr

/-- The parsed table the pipeline starts from: the frame's column names and
its rows. -/
structure CSVTable where
  cols : List String
  rows : List OrderRow
deriving Repr

/-- The SARIMAX fit-and-forecast of lines 45-53, as the script observes it:
from the aggregated SALES series, either the exception message the numerical
routine raises, or the 12 predicted means with their confidence rows. -/
abbrev FitFun := List Int → Except String (List ℚ × List (ℚ × ℚ))

/-- Lines 26-57: the pipeline run on one parsed table. Missing required
columns halt the run with the schema report (lines 27-29). Otherwise dates
are parsed and aggregated (lines 32-38) and the fit runs; an exception from
the fit, or from reading `index[-1]` of an empty series (line 51), is caught
by the `except` of line 73 and reported as the generic error. -/
def runPipeline (fit : FitFun) (t : CSVTable) : Except PipelineError PipelineOutput :=
  if required_cols.all fun c => t.cols.contains c then
    let parsed := dropBadDates t.rows
    let ms := monthly_sales parsed
    match fit (ms.map fun p => p.2) with
    | Except.error e => Except.error (PipelineError.genericError ("❌ Error: " ++ e))
    | Except.ok fr =>
      match (ms.map fun p => p.1).getLast? with
      | none => Except.error (PipelineError.genericError
          ("❌ Error: index -1 is out of bounds for axis 0 with size 0"))
      | some last => Except.ok ⟨ms, forecast_index last, fr.1, fr.2⟩
  else Except.error (PipelineError.schemaError required_cols)

/-- The message `statsmodels` raises when `SARIMAX(...).fit` runs on a
zero-length endogenous series. -/
def emptyFitMsg : String :=
  "zero-size array to reduction operation maximum which has no identity"

/-- A concrete stand-in used to instantiate the fit-generic theorems at
concrete inputs. Its empty-series branch models the one SARIMAX behaviour
the pipeline theorems rely on: the fit raises on an empty series. The
non-empty branch is an arbitrary successful outcome; no theorem below
depends on it. -/
def fitStub : FitFun := fun s =>
  if s.isEmpty then Except.error emptyFitMsg
  else Except.ok (s.map fun v => (v : ℚ), [])

/-- The `NameError` message Python raises at line 83 when `forecast_df` was
never assigned. -/
def nameErrorMsg : String := "name 'forecast_df' is not defined"

/-- One whole run of the module-level script: `displayed` is the pipeline
error shown by `st.error` inside the `if uploaded_file:` block, if any, and
`outcome` is `Except.ok` when the script finishes, `Except.error msg` when
an exception escapes the script uncaught. -/
structure ScriptRun where
  displayed : Option PipelineError
  outcome : Except String PipelineOutput

/-- The script top level (lines 14-86). Lines 81-86 (the download button)
sit outside both the `if uploaded_file:` guard and the `try`/`except`; they
evaluate `forecast_df.to_csv()`, and `forecast_df` is only assigned when the
pipeline reached line 57, so on every other path — no upload, or any
pipeline error — the script ends in an uncaught `NameError`. -/
def runScript (fit : FitFun) (upload : Option CSVTable) : ScriptRun :=
  match upload with
  | none => ⟨none, Except.error nameErrorMsg⟩
  | some t =>
    match runPipeline fit t with
    | Except.ok out => ⟨none, Except.ok out⟩
    | Except.error e => ⟨some e, Except.error nameErrorMsg⟩

/-- The required-column validation as the spec words it: columns named
"order date" and "sales", exact case-sensitive identifiers. Stated for
comparison with `required_cols`, which the script actually checks. -/
def requiredColsPresentSpec (cols : List String) : Bool :=
  cols.contains ("order date") && cols.contains ("sales")

/-- The two-sided confidence interval `forecast.conf_int()` pairs with the
predicted means (lines 50-53): for each step `(mean, se)` of predicted mean
and standard error, the bounds `mean - z * se` and `mean + z * se`, where
`z` is the two-sided normal quantile of the library's confidence level
(about 1.96 at the default 95%; kept as a parameter because its value is an
irrational constant — the bound invariant needs only that it is
non-negative). -/
def conf_int (z : ℚ) (steps : List (ℚ × ℚ)) : List (ℚ × ℚ) :=
  steps.map fun s => (s.1 - z * s.2, s.1 + z * s.2)

/-! ## Basic facts about the aggregation -/

theorem truncMonth_idem (d : Date) : d.truncMonth.truncMonth = d.truncMonth := rfl

theorem dateLE_refl (a : Date) : dateLE a a := Nat.le_refl _

theorem monthly_sales_map_fst (parsed : List (Date × Option Int)) :
    (monthly_sales parsed).map Prod.fst = sortedKeys parsed := by
  rw [monthly_sales, List.map_map]
  exact List.map_id _

theorem mem_sortedKeys (parsed : List (Date × Option Int)) (m : Date) :
    m ∈ sortedKeys parsed ↔ ∃ r ∈ parsed, r.1.truncMonth = m := by
  rw [sortedKeys, List.mem_insertionSort, List.mem_dedup, List.mem_map]

theorem sortedKeys_sorted (parsed : List (Date × Option Int)) :
    (sortedKeys parsed).Sorted dateLE :=
  List.sorted_insertionSort dateLE _

theorem sortedKeys_nodup (parsed : List (Date × Option Int)) :
    (sortedKeys parsed).Nodup :=
  ((List.perm_insertionSort dateLE _).nodup_iff).mpr (List.nodup_dedup _)

theorem sortedKeys_truncMonth_fixed (parsed : List (Date × Option Int)) :
    ∀ m ∈ sortedKeys parsed, m.truncMonth = m := by
  intro m hm
  obtain ⟨r, _, rfl⟩ := (mem_sortedKeys parsed m).mp hm
  rfl

theorem mem_monthly_sales (parsed : List (Date × Option Int)) (m : Date) (v : Int) :
    (m, v) ∈ monthly_sales parsed ↔
      (∃ r ∈ parsed, r.1.truncMonth = m) ∧ v = groupSum parsed m := by
  rw [monthly_sales, List.mem_map]
  constructor
  · rintro ⟨k, hk, he⟩
    rw [Prod.mk.injEq] at he
    obtain ⟨rfl, rfl⟩ := he
    exact ⟨(mem_sortedKeys parsed k).mp hk, rfl⟩
  · rintro ⟨hm, rfl⟩
    exact ⟨m, (mem_sortedKeys parsed m).mpr hm, rfl⟩

theorem mem_dropBadDates (rows : List OrderRow) (p : Date × Option Int) :
    p ∈ dropBadDates rows ↔ ∃ r ∈ rows, r.orderdate = some p.1 ∧ r.sales = p.2 := by
  rw [dropBadDates, List.mem_filterMap]
  constructor
  · rintro ⟨r, hr, he⟩
    rw [Option.map_eq_some'] at he
    obtain ⟨d, hd, he⟩ := he
    refine ⟨r, hr, ?_, ?_⟩
    · rw [hd, ← he]
    · rw [← he]
  · rintro ⟨r, hr, hd, hs⟩
    refine ⟨r, hr, ?_⟩
    rw [hd, Option.map_some', hs]

theorem sum_filterMap_sales (l : List (Date × Option Int)) :
    (l.filterMap fun r => r.2).sum = (l.map fun r => r.2.getD 0).sum := by
  induction l with
  | nil => rfl
  | cons r t ih =>
    cases h : r.2 with
    | none => simp [List.filterMap_cons, h, ih]
    | some a => simp [List.filterMap_cons, h, ih]

/-! ## Claim theorems -/

/-- C2: for every set of parsed rows, each row whose date parses is
truncated to the first day of its calendar month, rows are grouped by that
truncated month and the sales values are summed per group; in particular
the rows [(2023-01-05, 100), (2023-01-20, 50), (2023-02-01, 200)] aggregate
to [(2023-01-01, 150), (2023-02-01, 200)]. -/
theorem c2_monthly_aggregation :
    (∀ (rows : List OrderRow) (m : Date) (v : Int),
        (m, v) ∈ aggregate rows ↔
          ((∃ r ∈ rows, ∃ d, r.orderdate = some d ∧ d.truncMonth = m) ∧
            v = (((dropBadDates rows).filter fun r =>
                    decide (r.1.truncMonth = m)).filterMap fun r => r.2).sum)) ∧
      aggregate
          [⟨some ⟨2023, 1, 5⟩, some 100⟩, ⟨some ⟨2023, 1, 20⟩, some 50⟩,
            ⟨some ⟨2023, 2, 1⟩, some 200⟩] =
        [(⟨2023, 1, 1⟩, 150), (⟨2023, 2, 1⟩, 200)] := by
  constructor
  · intro rows m v
    rw [aggregate, mem_monthly_sales, groupSum]
    constructor
    · rintro ⟨⟨p, hp, hpm⟩, hv⟩
      obtain ⟨r, hr, hd, _⟩ := (mem_dropBadDates rows p).mp hp
      exact ⟨⟨r, hr, p.1, hd, hpm⟩, hv⟩
    · rintro ⟨⟨r, hr, d, hd, hdm⟩, hv⟩
      refine ⟨⟨(d, r.sales), ?_, hdm⟩, hv⟩
      exact (mem_dropBadDates rows (d, r.sales)).mpr ⟨r, hr, hd, rfl⟩
  · decide

/-- C9: negative or missing sales values pass into their month's total
without validation: every row of a month contributes its value unchanged
(a missing cell contributing nothing, as pandas skips NaN when summing);
in particular rows with a negative and a missing SALES cell aggregate to
the signed total of the present values. -/
theorem c9_no_sales_validation :
    (∀ (parsed : List (Date × Option Int)) (m : Date) (v : Int),
        (m, v) ∈ monthly_sales parsed →
          v = ((parsed.filter fun r => decide (r.1.truncMonth = m)).map
                fun r => r.2.getD 0).sum) ∧
      monthly_sales [(⟨2023, 1, 5⟩, some (-100)), (⟨2023, 1, 20⟩, none),
          (⟨2023, 1, 25⟩, some 50)] =
        [(⟨2023, 1, 1⟩, -50)] := by
  constructor
  · intro parsed m v hm
    rw [((mem_monthly_sales parsed m v).mp hm).2, groupSum, sum_filterMap_sales]
  · decide

/-- C5 (code bug): with no file uploaded, the script does not end cleanly:
line 83 evaluates `forecast_df.to_csv()` outside both the upload guard and
the `try`/`except`, and `forecast_df` was never assigned, so an uncaught
`NameError` escapes the run instead of every failure being caught and
displayed. -/
theorem c5_uncaught_nameerror :
    runScript fitStub none = ⟨none, Except.error nameErrorMsg⟩ := rfl

/-- C3 counterexample: a table with columns named exactly "order date" and
"sales" — the identifiers the claim gives — satisfies the claim's
validation, yet the script halts it with the schema error: the identifiers
the code checks are `ORDERDATE` and `SALES`. -/
theorem c3_counterexample_lowercase_names :
    requiredColsPresentSpec ["order date", "sales"] = true ∧
      runPipeline fitStub ⟨["order date", "sales"], []⟩ =
        Except.error (PipelineError.schemaError required_cols) := by
  exact ⟨rfl, rfl⟩

/-- C4 counterexample: a header-only upload (required columns present, zero
data rows) is not reported as a distinct data-quality error: the empty
series reaches the SARIMAX fit, the fit raises, and the run reports the
exception through the same generic catch-all that reports any model-fit
crash. -/
theorem c4_counterexample_header_only :
    runPipeline fitStub ⟨["ORDERDATE", "SALES"], []⟩ =
      Except.error (PipelineError.genericError ("❌ Error: " ++ emptyFitMsg)) := by
  exact rfl

/-- C8: encoding detection never raises and always yields a usable encoding:
a missing detection result and a result whose lowercase form is the legacy
multi-byte encoding johab are both replaced by ISO-8859-1, and ISO-8859-1
decodes every byte sequence without error. -/
theorem c8_encoding_fallback :
    ∀ (detected : Option String) (bytes : List Nat),
      (∀ b ∈ bytes, b < 256) →
      chooseEncoding detected ≠ "" ∧
        chooseEncoding none = "ISO-8859-1" ∧
        (∀ e : String, e.toLower = "johab" → chooseEncoding (some e) = "ISO-8859-1") ∧
        (decodeLatin1 bytes).isSome = true := by
  intro detected bytes hb
  refine ⟨?_, rfl, ?_, ?_⟩
  · cases detected with
    | none => decide
    | some e =>
      rw [chooseEncoding]
      split
      · next h => exact h.1
      · decide
  · intro e he
    rw [chooseEncoding, if_neg]
    intro h
    exact h.2 he
  · rw [decodeLatin1, if_pos]
    · rfl
    · rw [List.all_eq_true]
      intro b hbm
      exact decide_eq_true (hb b hbm)

/-- C8 witness: the theorem at the detection result johab and the byte
sequence [0, 255]. -/
theorem c8_witness :
    (∀ b ∈ ([0, 255] : List Nat), b < 256) ∧
      (chooseEncoding (some ("johab")) ≠ "" ∧
        chooseEncoding none = "ISO-8859-1" ∧
        (∀ e : String, e.toLower = "johab" → chooseEncoding (some e) = "ISO-8859-1") ∧
        (decodeLatin1 [0, 255]).isSome = true) :=
  ⟨by decide, c8_encoding_fallback (some ("johab")) [0, 255] (by decide)⟩

/-- C6: for every forecast step of a non-degenerate fit (non-negative
standard errors, non-negative quantile), the lower confidence bound is at
most the predicted mean, which is at most the upper bound. -/
theorem c6_conf_int_bounds :
    ∀ (z : ℚ) (steps : List (ℚ × ℚ)), 0 ≤ z → (∀ s ∈ steps, 0 ≤ s.2) →
      ∀ (i : Nat) (hi : i < (conf_int z steps).length) (hi' : i < steps.length),
        ((conf_int z steps).get ⟨i, hi⟩).1 ≤ (steps.get ⟨i, hi'⟩).1 ∧
          (steps.get ⟨i, hi'⟩).1 ≤ ((conf_int z steps).get ⟨i, hi⟩).2 := by
  intro z steps hz hse i hi hi'
  have hmem : steps.get ⟨i, hi'⟩ ∈ steps := List.get_mem steps i hi'
  have hnn : 0 ≤ z * (steps.get ⟨i, hi'⟩).2 := mul_nonneg hz (hse _ hmem)
  have hget : (conf_int z steps).get ⟨i, hi⟩ =
      ((steps.get ⟨i, hi'⟩).1 - z * (steps.get ⟨i, hi'⟩).2,
        (steps.get ⟨i, hi'⟩).1 + z * (steps.get ⟨i, hi'⟩).2) := by
    simp [conf_int]
  rw [hget]
  exact ⟨sub_le_self _ hnn, le_add_of_nonneg_right hnn⟩

/-- C6 witness: the theorem at the quantile 1 and the single forecast step
of mean 10 and standard error 1. -/
theorem c6_witness :
    (0 : ℚ) ≤ 1 ∧ (∀ s ∈ ([((10 : ℚ), (1 : ℚ))] : List (ℚ × ℚ)), 0 ≤ s.2) ∧
      (((conf_int 1 [((10 : ℚ), (1 : ℚ))]).get ⟨0, by decide⟩).1 ≤
          (([((10 : ℚ), (1 : ℚ))] : List (ℚ × ℚ)).get ⟨0, by decide⟩).1 ∧
        (([((10 : ℚ), (1 : ℚ))] : List (ℚ × ℚ)).get ⟨0, by decide⟩).1 ≤
          ((conf_int 1 [((10 : ℚ), (1 : ℚ))]).get ⟨0, by decide⟩).2) :=
  ⟨zero_le_one,
    fun s hs => by
      rw [List.mem_singleton] at hs
      rw [hs]
      exact zero_le_one,
    c6_conf_int_bounds 1 [((10 : ℚ), (1 : ℚ))] zero_le_one
      (fun s hs => by
        rw [List.mem_singleton] at hs
        rw [hs]
        exact zero_le_one)
      0 (by decide) (by decide)⟩

/-- C3 (amended): the run halts with the schema error naming the required
columns exactly when one of the exact case-sensitive identifiers `ORDERDATE`
and `SALES` is absent from the parsed table's columns; the halt is a
reported error value, not a crash, and is not retried. -/
theorem c3_schema_check_amended :
    ∀ (fit : FitFun) (t : CSVTable),
      runPipeline fit t = Except.error (PipelineError.schemaError required_cols) ↔
        ¬("ORDERDATE" ∈ t.cols ∧ "SALES" ∈ t.cols) := by
  intro fit t
  have hall : (required_cols.all fun c => t.cols.contains c) = true ↔
      ("ORDERDATE" ∈ t.cols ∧ "SALES" ∈ t.cols) := by
    simp [required_cols]
  by_cases hc : (required_cols.all fun c => t.cols.contains c) = true
  · simp only [runPipeline, if_pos hc]
    constructor
    · intro he
      exfalso
      revert he
      cases fit ((monthly_sales (dropBadDates t.rows)).map fun p => p.2) with
      | error e =>
        intro he
        simp at he
      | ok fr =>
        cases ((monthly_sales (dropBadDates t.rows)).map fun p => p.1).getLast? with
        | none =>
          intro he
          simp at he
        | some last =>
          intro he
          simp at he
    · intro hn
      exact absurd (hall.mp hc) hn
  · simp only [runPipeline, if_neg hc]
    constructor
    · intro _
      exact fun hmem => hc (hall.mpr hmem)
    · intro _
      trivial

/-- C4 (amended): when the required columns are present but zero rows
survive the bad-date drop, the run does not report a distinct data-quality
error: the empty series reaches the SARIMAX fit, and the exception the fit
raises is reported through the generic top-level catch-all. -/
theorem c4_empty_series_generic_amended :
    ∀ (fit : FitFun) (t : CSVTable) (msg : String),
      "ORDERDATE" ∈ t.cols → "SALES" ∈ t.cols →
      dropBadDates t.rows = [] →
      fit [] = Except.error msg →
      runPipeline fit t =
        Except.error (PipelineError.genericError ("❌ Error: " ++ msg)) := by
  intro fit t msg h1 h2 hdrop hfit
  have hc : (required_cols.all fun c => t.cols.contains c) = true := by
    simp [required_cols]
    exact ⟨h1, h2⟩
  simp only [runPipeline, if_pos hc, hdrop]
  have hms : monthly_sales [] = [] := rfl
  rw [hms]
  simp only [List.map_nil]
  rw [hfit]

/-- C4 witness: the amended theorem at the stand-in fit and a header-only
table (required columns present, zero rows). -/
theorem c4_witness :
    ("ORDERDATE" ∈ (["ORDERDATE", "SALES"] : List String) ∧
        "SALES" ∈ (["ORDERDATE", "SALES"] : List String) ∧
        dropBadDates ([] : List OrderRow) = [] ∧
        fitStub [] = Except.error emptyFitMsg) ∧
      runPipeline fitStub ⟨["ORDERDATE", "SALES"], []⟩ =
        Except.error (PipelineError.genericError ("❌ Error: " ++ emptyFitMsg)) :=
  ⟨⟨by decide, by decide, rfl, rfl⟩,
    c4_empty_series_generic_amended fitStub ⟨["ORDERDATE", "SALES"], []⟩ emptyFitMsg
      (by decide) (by decide) rfl rfl⟩

/-! ## The forecast date index -/

theorem forecast_index_length (d : Date) :
    (forecast_index d).length = forecast_steps := by
  simp [forecast_index]

theorem forecast_index_get (d : Date) (i : Nat) (hi : i < forecast_steps) :
    (forecast_index d)[i]? = some (addMonths d (i + 1)) := by
  rw [forecast_index, List.getElem?_map, List.getElem?_range hi, Option.map_some']

theorem addMonths_succ (d : Date) (k : Nat) :
    addMonths d (k + 1) = addMonths (addMonths d k) 1 := by
  simp only [addMonths, Date.mk.injEq]
  exact ⟨by omega, by omega, trivial⟩

theorem dateLE_getLast_of_sorted :
    ∀ l : List (Date × Int), (l.map Prod.fst).Sorted dateLE →
      ∀ p ∈ l, ∀ q, l.getLast? = some q → dateLE p.1 q.1 := by
  intro l
  induction l with
  | nil =>
    intro _ p hp
    cases hp
  | cons x t ih =>
    intro hs p hp q hq
    rw [List.map_cons, List.sorted_cons] at hs
    cases t with
    | nil =>
      rcases List.mem_singleton.mp hp with rfl
      injection hq with hq
      rw [← hq]
      exact dateLE_refl _
    | cons y t' =>
      rw [List.getLast?_cons_cons] at hq
      rcases List.mem_cons.mp hp with rfl | hp'
      · obtain ⟨hne', heq⟩ := List.mem_getLast?_eq_getLast (Option.mem_def.mpr hq)
        have hqm : q ∈ y :: t' := heq ▸ List.getLast_mem hne'
        exact hs.1 q.1 (List.mem_map_of_mem Prod.fst hqm)
      · exact ih hs.2 p hp' q hq

/-- C1: for every parsed input whose monthly series is non-empty, the
forecast date index has exactly 12 steps, its i-th entry is the last
historical month plus i+1 months — so it starts at the first calendar month
after the last month present and advances by exactly one month per step
with no gaps — and the series entry it starts from is indeed the latest
month of the series. -/
theorem c1_forecast_index_consecutive :
    ∀ (parsed : List (Date × Option Int)) (h : monthly_sales parsed ≠ []),
      (forecast_index ((monthly_sales parsed).getLast h).1).length = forecast_steps ∧
        (∀ i, i < forecast_steps →
          (forecast_index ((monthly_sales parsed).getLast h).1)[i]? =
            some (addMonths ((monthly_sales parsed).getLast h).1 (i + 1))) ∧
        (∀ i, i + 1 < forecast_steps →
          (forecast_index ((monthly_sales parsed).getLast h).1)[i + 1]? =
            Option.map (fun d => addMonths d 1)
              ((forecast_index ((monthly_sales parsed).getLast h).1)[i]?)) ∧
        ∀ p ∈ monthly_sales parsed, dateLE p.1 ((monthly_sales parsed).getLast h).1 := by
  intro parsed h
  refine ⟨forecast_index_length _, fun i hi => forecast_index_get _ i hi, ?_, ?_⟩
  · intro i hi
    rw [forecast_index_get _ (i + 1) hi, forecast_index_get _ i (Nat.lt_of_succ_lt hi),
      Option.map_some']
    rw [addMonths_succ]
  · intro p hp
    have hsorted : ((monthly_sales parsed).map Prod.fst).Sorted dateLE := by
      rw [monthly_sales_map_fst]
      exact sortedKeys_sorted parsed
    exact dateLE_getLast_of_sorted _ hsorted p hp _ (List.getLast?_eq_getLast_of_ne_nil h)

/-- Input for the C1 witness: two rows whose monthly series ends at
2024-12-01, the month of the spec's example. -/
def c1rows : List (Date × Option Int) :=
  [(⟨2024, 11, 5⟩, some 10), (⟨2024, 12, 3⟩, some 20)]

/-- C1 witness: the theorem at a concrete series ending 2024-12-01, plus
the spec's example: that series forecasts the dates 2025-01-01 through
2025-12-01 in order. -/
theorem c1_witness :
    (monthly_sales c1rows ≠ []) ∧
      ((forecast_index ((monthly_sales c1rows).getLast (by decide)).1).length =
          forecast_steps ∧
        (∀ i, i < forecast_steps →
          (forecast_index ((monthly_sales c1rows).getLast (by decide)).1)[i]? =
            some (addMonths ((monthly_sales c1rows).getLast (by decide)).1 (i + 1))) ∧
        (∀ i, i + 1 < forecast_steps →
          (forecast_index ((monthly_sales c1rows).getLast (by decide)).1)[i + 1]? =
            Option.map (fun d => addMonths d 1)
              ((forecast_index ((monthly_sales c1rows).getLast (by decide)).1)[i]?)) ∧
        ∀ p ∈ monthly_sales c1rows, dateLE p.1 ((monthly_sales c1rows).getLast (by decide)).1) ∧
      forecast_index ⟨2024, 12, 1⟩ =
        [⟨2025, 1, 1⟩, ⟨2025, 2, 1⟩, ⟨2025, 3, 1⟩, ⟨2025, 4, 1⟩, ⟨2025, 5, 1⟩, ⟨2025, 6, 1⟩,
          ⟨2025, 7, 1⟩, ⟨2025, 8, 1⟩, ⟨2025, 9, 1⟩, ⟨2025, 10, 1⟩, ⟨2025, 11, 1⟩,
          ⟨2025, 12, 1⟩] :=
  ⟨by decide, c1_forecast_index_consecutive c1rows (by decide), by decide⟩

/-! ## Order and distinctness of the monthly series -/

theorem date_fields_eq (ya ma yb mb : Nat) (h1 : 1 ≤ ma) (h2 : ma ≤ 12) (h3 : 1 ≤ mb)
    (h4 : mb ≤ 12) (hk : (ya * 13 + ma) * 32 + 1 = (yb * 13 + mb) * 32 + 1) :
    ya = yb ∧ ma = mb := by omega

/-- C7: the monthly series is strictly ascending by month with no duplicate
months, and performs no gap-filling: a month appears in the series exactly
when some parsed row falls in it. The hypothesis states that the parsed
dates are calendar dates (months 1-12), which `pd.to_datetime` guarantees. -/
theorem c7_sorted_nodup_no_gapfill :
    ∀ parsed : List (Date × Option Int),
      (∀ r ∈ parsed, 1 ≤ r.1.month ∧ r.1.month ≤ 12) →
      ((monthly_sales parsed).map Prod.fst).Pairwise dateLT ∧
        ∀ m : Date,
          m ∈ (monthly_sales parsed).map Prod.fst ↔ ∃ r ∈ parsed, r.1.truncMonth = m := by
  intro parsed hval
  rw [monthly_sales_map_fst]
  constructor
  · have hkeys : ∀ m ∈ sortedKeys parsed,
        ∃ y mo, m = Date.mk y mo 1 ∧ 1 ≤ mo ∧ mo ≤ 12 := by
      intro m hm
      obtain ⟨r, hr, rfl⟩ := (mem_sortedKeys parsed m).mp hm
      exact ⟨r.1.year, r.1.month, rfl, (hval r hr).1, (hval r hr).2⟩
    refine List.Pairwise.imp_of_mem ?_
      (List.Pairwise.and (sortedKeys_sorted parsed) (sortedKeys_nodup parsed))
    intro a b ha hb hab
    obtain ⟨ya, ma, rfl, ham1, ham2⟩ := hkeys a ha
    obtain ⟨yb, mb, rfl, hbm1, hbm2⟩ := hkeys b hb
    refine Nat.lt_of_le_of_ne hab.1 ?_
    intro hkeq
    simp only [Date.key] at hkeq
    obtain ⟨hy, hm⟩ := date_fields_eq ya ma yb mb ham1 ham2 hbm1 hbm2 hkeq
    exact hab.2 (by rw [hy, hm])
  · intro m
    exact mem_sortedKeys parsed m

/-- C7 witness: the theorem at three rows spanning two months, given out of
chronological order and with one missing SALES cell. -/
theorem c7_witness :
    (∀ r ∈ ([(⟨2023, 3, 10⟩, some 5), (⟨2023, 1, 2⟩, some 7), (⟨2023, 1, 9⟩, none)] :
        List (Date × Option Int)), 1 ≤ r.1.month ∧ r.1.month ≤ 12) ∧
      (((monthly_sales [(⟨2023, 3, 10⟩, some 5), (⟨2023, 1, 2⟩, some 7),
            (⟨2023, 1, 9⟩, none)]).map Prod.fst).Pairwise dateLT ∧
        ∀ m : Date,
          m ∈ (monthly_sales [(⟨2023, 3, 10⟩, some 5), (⟨2023, 1, 2⟩, some 7),
              (⟨2023, 1, 9⟩, none)]).map Prod.fst ↔
            ∃ r ∈ ([(⟨2023, 3, 10⟩, some 5), (⟨2023, 1, 2⟩, some 7), (⟨2023, 1, 9⟩, none)] :
              List (Date × Option Int)), r.1.truncMonth = m) :=
  ⟨by decide,
    c7_sorted_nodup_no_gapfill
      [(⟨2023, 3, 10⟩, some 5), (⟨2023, 1, 2⟩, some 7), (⟨2023, 1, 9⟩, none)] (by decide)⟩

/-! ## Idempotence of the aggregation -/

theorem filter_eq_singleton_of_nodup :
    ∀ l : List Date, l.Nodup → ∀ m ∈ l, (l.filter fun x => decide (x = m)) = [m] := by
  intro l
  induction l with
  | nil =>
    intro _ m hm
    cases hm
  | cons a t ih =>
    intro hnd m hm
    rw [List.nodup_cons] at hnd
    rcases List.mem_cons.mp hm with rfl | hmt
    · rw [List.filter_cons_of_pos (by simp)]
      rw [List.filter_eq_nil_iff.mpr]
      intro x hx
      simp only [decide_eq_true_eq]
      rintro rfl
      exact hnd.1 hx
    · rw [List.filter_cons_of_neg]
      · exact ih hnd.2 m hmt
      · intro hc
        have : a = m := of_decide_eq_true hc
        subst this
        exact hnd.1 hmt

/-- C10: aggregation is deterministic and idempotent: the same parsed rows
always give the same series, and re-aggregating the monthly series itself
(each month paired with its total, read back as rows) returns it
unchanged. -/
theorem c10_aggregation_idempotent :
    ∀ parsed : List (Date × Option Int),
      monthly_sales parsed = monthly_sales parsed ∧
        monthly_sales ((monthly_sales parsed).map fun p => (p.1, some p.2)) =
          monthly_sales parsed := by
  intro parsed
  refine ⟨rfl, ?_⟩
  have htr : ∀ m ∈ sortedKeys parsed, m.truncMonth = m := sortedKeys_truncMonth_fixed parsed
  have hrows : (monthly_sales parsed).map (fun p => (p.1, some p.2)) =
      (sortedKeys parsed).map fun m => (m, some (groupSum parsed m)) := by
    rw [monthly_sales, List.map_map]
    rfl
  rw [hrows]
  have hkeys : sortedKeys ((sortedKeys parsed).map fun m => (m, some (groupSum parsed m))) =
      sortedKeys parsed := by
    rw [sortedKeys, List.map_map]
    have h1 : ((sortedKeys parsed).map
        ((fun r : Date × Option Int => r.1.truncMonth) ∘
          fun m => (m, some (groupSum parsed m)))) = sortedKeys parsed :=
      (List.map_congr_left fun a ha => htr a ha).trans (List.map_id _)
    rw [h1, (sortedKeys_nodup parsed).dedup, (sortedKeys_sorted parsed).insertionSort_eq]
  rw [monthly_sales, hkeys, monthly_sales]
  refine List.map_congr_left ?_
  intro m hm
  have hgs : groupSum ((sortedKeys parsed).map fun k => (k, some (groupSum parsed k))) m =
      groupSum parsed m := by
    rw [groupSum, List.filter_map]
    have hfc : List.filter ((fun r : Date × Option Int => decide (r.1.truncMonth = m)) ∘
          fun k => (k, some (groupSum parsed k))) (sortedKeys parsed) =
        List.filter (fun k => decide (k = m)) (sortedKeys parsed) := by
      refine List.filter_congr ?_
      intro k hk
      simp only [Function.comp]
      rw [htr k hk]
    rw [hfc, filter_eq_singleton_of_nodup _ (sortedKeys_nodup parsed) m hm]
    simp
  rw [hgs]

end Sarima
